import Mathlib

/-!
Verification of the NFT staking vault fragment: the on-chain error table
in src/programs/nft_staking/src/errors.rs, together with the stake-lifecycle
state machine (Stake Engine, Reward Accrual Calculator, Stake Record
lifecycle) that the specification describes around it.
-/

/-- The `StakeError` enum of src/programs/nft_staking/src/errors.rs:
two variants in declaration order, `MaxStakeReached` then
`FreezePeriodNotPassed`. -/
inductive StakeError where
  | MaxStakeReached
  | FreezePeriodNotPassed
deriving DecidableEq, Repr

/-- The `#[msg(...)]` string attached to each `StakeError` variant in
src/programs/nft_staking/src/errors.rs. -/
def StakeError.msg : StakeError → String
  | .MaxStakeReached => "Max Stake Reached"
  | .FreezePeriodNotPassed => "Freeze Time Not Passed"

/-- The numeric error code Anchor assigns to each variant of an
`#[error_code]` enum: the base 6000 plus the declaration index. -/
def StakeError.code : StakeError → Nat
  | .MaxStakeReached => 6000
  | .FreezePeriodNotPassed => 6001

/-- Modelled from the spec: the full error taxonomy of the Stake Engine API
(spec section 6), whose engine code is not part of the examined fragment.
The two variants of the on-chain `StakeError` fragment appear first, in the
same order; the remaining four are the companions the spec infers. -/
inductive EngineError where
  | MaxStakeReached
  | FreezePeriodNotPassed
  | AssetAlreadyStaked
  | NotOwner
  | RecordNotFound
  | StoreConflict
deriving DecidableEq, Repr

/-- Modelled from the spec: `StakeConfig` (spec section 3), the immutable
configuration supplied at initialization. Timestamps and durations are
naturals; the reward rate is a non-negative rational, embedded as `ℚ`. -/
structure StakeConfig where
  max_stakes_per_user : Nat
  freeze_duration : Nat
  reward_rate : ℚ
deriving DecidableEq, Repr

/-- Modelled from the spec: `StakeRecord` (spec section 3), one per staked
asset instance. -/
structure StakeRecord where
  owner : Nat
  asset_id : Nat
  staked_at : Nat
  last_claim_at : Nat
  accrued_unclaimed : ℚ
deriving DecidableEq, Repr

/-- Modelled from the spec: the observable state of the Stake Engine, the
active `StakeRecord`s together with the per-user `UserStakeCounter` entries
(spec section 3), both living in the keyed Ledger Account Store. -/
structure EngineState where
  records : List StakeRecord
  counters : List (Nat × Nat)
deriving DecidableEq, Repr

/-- The empty engine state: no records, no counters. -/
def EngineState.empty : EngineState := ⟨[], []⟩

/-- Look up the `active_count` of a user; a user with no counter entry
counts as zero (counters are created lazily, spec section 3). -/
def getCount : List (Nat × Nat) → Nat → Nat
  | [], _ => 0
  | p :: rest, u => if p.1 = u then p.2 else getCount rest u

/-- Store a new `active_count` for a user, creating the entry if absent. -/
def setCount : List (Nat × Nat) → Nat → Nat → List (Nat × Nat)
  | [], u, n => [(u, n)]
  | p :: rest, u, n =>
    if p.1 = u then (u, n) :: rest else p :: setCount rest u n

/-- Modelled from the spec: the Reward Accrual Calculator (spec section
4.2). `accrue last_claim_at now reward_rate` is
`reward_rate * (now - last_claim_at)`, clamped to zero when
`now < last_claim_at`. -/
def accrue (last_claim_at now : Nat) (reward_rate : ℚ) : ℚ :=
  if now < last_claim_at then 0
  else reward_rate * ((now : ℚ) - (last_claim_at : ℚ))

/-- Find the first record for an asset in a list of records, if any. -/
def findRec : List StakeRecord → Nat → Option StakeRecord
  | [], _ => none
  | r :: rest, a => if r.asset_id = a then some r else findRec rest a

/-- Find the active record for an asset, if any. -/
def findRecord (s : EngineState) (asset : Nat) : Option StakeRecord :=
  findRec s.records asset

/-- Modelled from the spec: `Deposit(user, asset_id, now)` (spec section
4.1). Fails with `MaxStakeReached` when the admission ceiling is violated
and with `AssetAlreadyStaked` when an active record already exists;
otherwise creates the record and increments the counter. On any failure the
returned state is the input state unchanged (atomicity policy, spec section
4.1). -/
def deposit (cfg : StakeConfig) (s : EngineState) (user asset now : Nat) :
    EngineState × Except EngineError StakeRecord :=
  if cfg.max_stakes_per_user ≤ getCount s.counters user then
    (s, .error .MaxStakeReached)
  else if (findRecord s asset).isSome then
    (s, .error .AssetAlreadyStaked)
  else
    let r : StakeRecord := ⟨user, asset, now, now, 0⟩
    (⟨r :: s.records, setCount s.counters user (getCount s.counters user + 1)⟩,
      .ok r)

/-- Modelled from the spec: `Withdraw(user, asset_id, now)` (spec section
4.1). Requires an active record with matching owner and
`now - staked_at ≥ freeze_duration`; settles pending rewards, destroys the
record and decrements the counter. Fails with `RecordNotFound`, `NotOwner`
or `FreezePeriodNotPassed`, in that order of checks, leaving the state
unchanged. -/
def withdraw (cfg : StakeConfig) (s : EngineState) (user asset now : Nat) :
    EngineState × Except EngineError ℚ :=
  match findRecord s asset with
  | none => (s, .error .RecordNotFound)
  | some r =>
    if r.owner ≠ user then (s, .error .NotOwner)
    else if now < r.staked_at + cfg.freeze_duration then
      (s, .error .FreezePeriodNotPassed)
    else
      let payout := r.accrued_unclaimed + accrue r.last_claim_at now cfg.reward_rate
      (⟨s.records.filter (fun x => x.asset_id != asset),
        setCount s.counters user (getCount s.counters user - 1)⟩,
        .ok payout)

/-- Modelled from the spec: `RewardClaim(user, asset_id, now)` (spec
section 4.1). Requires an active record with matching owner; pays out
`accrued_unclaimed` plus the newly accrued amount, resets
`accrued_unclaimed` to zero and sets `last_claim_at` to `now`. Callable at
any time regardless of freeze state. -/
def rewardClaim (cfg : StakeConfig) (s : EngineState) (user asset now : Nat) :
    EngineState × Except EngineError ℚ :=
  match findRecord s asset with
  | none => (s, .error .RecordNotFound)
  | some r =>
    if r.owner ≠ user then (s, .error .NotOwner)
    else
      let payout := r.accrued_unclaimed + accrue r.last_claim_at now cfg.reward_rate
      (⟨s.records.map (fun x =>
          if x.asset_id = asset then
            { x with last_claim_at := now, accrued_unclaimed := 0 }
          else x),
        s.counters⟩,
        .ok payout)

/-- Run a sequence of Deposit operations, each given as
`(user, asset, now)`, threading the state. -/
def runDeposits (cfg : StakeConfig) (s : EngineState) :
    List (Nat × Nat × Nat) → EngineState
  | [] => s
  | (u, a, t) :: rest => runDeposits cfg (deposit cfg s u a t).1 rest

/-- Run a sequence of RewardClaim operations at the given times by one
user on one asset, threading the state and summing the payouts of the
successful calls. -/
def runClaims (cfg : StakeConfig) (s : EngineState) (user asset : Nat) :
    List Nat → EngineState × ℚ
  | [] => (s, 0)
  | t :: rest =>
    match rewardClaim cfg s user asset t with
    | (s1, .ok p) =>
      let out := runClaims cfg s1 user asset rest
      (out.1, p + out.2)
    | (s1, .error _) => runClaims cfg s1 user asset rest

/-- The concrete scenario of spec section 8: configuration
`max_stakes_per_user = 2`, `freeze_duration = 100`, `reward_rate = 1`.
User A is 0; asset1, asset2, asset3 are 1, 2, 3. -/
def scCfg : StakeConfig := ⟨2, 100, 1⟩

/-- Scenario step 1: Deposit(A, asset1, t=0). -/
def sc1 : EngineState × Except EngineError StakeRecord :=
  deposit scCfg EngineState.empty 0 1 0

/-- Scenario step 2: Deposit(A, asset2, t=0). -/
def sc2 : EngineState × Except EngineError StakeRecord :=
  deposit scCfg sc1.1 0 2 0

/-- Scenario step 3: Deposit(A, asset3, t=0). -/
def sc3 : EngineState × Except EngineError StakeRecord :=
  deposit scCfg sc2.1 0 3 0

/-- Scenario step 4: Withdraw(A, asset1, t=50). -/
def sc4 : EngineState × Except EngineError ℚ :=
  withdraw scCfg sc3.1 0 1 50

/-- Scenario step 5: RewardClaim(A, asset1, t=50). -/
def sc5 : EngineState × Except EngineError ℚ :=
  rewardClaim scCfg sc4.1 0 1 50

/-- Scenario step 6: Withdraw(A, asset1, t=100). -/
def sc6 : EngineState × Except EngineError ℚ :=
  withdraw scCfg sc5.1 0 1 100

/-- Equality of operation results is decidable, so concrete runs can be
checked by evaluation. -/
instance {ε α : Type} [DecidableEq ε] [DecidableEq α] :
    DecidableEq (Except ε α) := fun a b =>
  match a, b with
  | .ok x, .ok y =>
    if h : x = y then isTrue (by rw [h])
    else isFalse (fun hc => h (Except.ok.inj hc))
  | .error x, .error y =>
    if h : x = y then isTrue (by rw [h])
    else isFalse (fun hc => h (Except.error.inj hc))
  | .ok _, .error _ => isFalse (fun hc => Except.noConfusion hc)
  | .error _, .ok _ => isFalse (fun hc => Except.noConfusion hc)

/-- C1 counterexample: the message attached to `FreezePeriodNotPassed` in
src/programs/nft_staking/src/errors.rs is not the string
"Freeze Period Not Passed". -/
theorem freezePeriodNotPassed_msg_mismatch :
    StakeError.msg StakeError.FreezePeriodNotPassed ≠ "Freeze Period Not Passed" := by
  decide

/-- C1 (amended): the message attached to `MaxStakeReached` is exactly
"Max Stake Reached" and the message attached to `FreezePeriodNotPassed` is
exactly "Freeze Time Not Passed". -/
theorem stakeError_messages :
    StakeError.msg StakeError.MaxStakeReached = "Max Stake Reached" ∧
    StakeError.msg StakeError.FreezePeriodNotPassed = "Freeze Time Not Passed" := by
  constructor <;> rfl

/-- C10: `StakeError` has exactly the two variants `MaxStakeReached` (first,
code 6000, message "Max Stake Reached") and `FreezePeriodNotPassed` (second,
code 6001, message "Freeze Time Not Passed"), and the variant-to-code map is
injective. -/
theorem stakeError_table :
    (∀ e : StakeError,
        e = StakeError.MaxStakeReached ∨ e = StakeError.FreezePeriodNotPassed) ∧
    StakeError.MaxStakeReached ≠ StakeError.FreezePeriodNotPassed ∧
    StakeError.msg StakeError.MaxStakeReached = "Max Stake Reached" ∧
    StakeError.msg StakeError.FreezePeriodNotPassed = "Freeze Time Not Passed" ∧
    StakeError.code StakeError.MaxStakeReached = 6000 ∧
    StakeError.code StakeError.FreezePeriodNotPassed = 6001 ∧
    Function.Injective StakeError.code := by
  refine ⟨fun e => ?_, by decide, rfl, rfl, rfl, rfl, fun a b h => ?_⟩
  · cases e
    · exact Or.inl rfl
    · exact Or.inr rfl
  · cases a <;> cases b <;> first | rfl | simp [StakeError.code] at h

/-- C5: the Reward Accrual Calculator returns
`reward_rate * (now - last_claim_at)` whenever `last_claim_at ≤ now`, and
zero whenever `now < last_claim_at`. -/
theorem accrue_contract (lca now : Nat) (rate : ℚ) :
    (lca ≤ now → accrue lca now rate = rate * ((now : ℚ) - (lca : ℚ))) ∧
    (now < lca → accrue lca now rate = 0) := by
  constructor
  · intro h
    unfold accrue
    rw [if_neg (Nat.not_lt.mpr h)]
  · intro h
    unfold accrue
    rw [if_pos h]

/-- C5 witness: at `last_claim_at = 3`, `now = 10`, `reward_rate = 2`, the
calculator pays `2 * (10 - 3)`. -/
theorem accrue_contract_witness :
    accrue 3 10 2 = 2 * ((10 : ℚ) - (3 : ℚ)) :=
  (accrue_contract 3 10 2).1 (by decide)

/-- C2: every Stake Engine operation returns either `Ok` with a payload or
`Err` with a kind, and the kinds are exactly the six of the Stake Engine
API: `MaxStakeReached`, `FreezePeriodNotPassed`, `AssetAlreadyStaked`,
`NotOwner`, `RecordNotFound`, `StoreConflict`. -/
theorem engine_result_taxonomy :
    (∀ e : EngineError,
        e = EngineError.MaxStakeReached ∨ e = EngineError.FreezePeriodNotPassed ∨
        e = EngineError.AssetAlreadyStaked ∨ e = EngineError.NotOwner ∨
        e = EngineError.RecordNotFound ∨ e = EngineError.StoreConflict) ∧
    (∀ cfg s user asset now,
        (∃ p, (deposit cfg s user asset now).2 = Except.ok p) ∨
        (∃ k : EngineError, (deposit cfg s user asset now).2 = Except.error k)) ∧
    (∀ cfg s user asset now,
        (∃ p, (withdraw cfg s user asset now).2 = Except.ok p) ∨
        (∃ k : EngineError, (withdraw cfg s user asset now).2 = Except.error k)) ∧
    (∀ cfg s user asset now,
        (∃ p, (rewardClaim cfg s user asset now).2 = Except.ok p) ∨
        (∃ k : EngineError, (rewardClaim cfg s user asset now).2 = Except.error k)) := by
  refine ⟨fun e => ?_, fun cfg s user asset now => ?_, fun cfg s user asset now => ?_,
    fun cfg s user asset now => ?_⟩
  · cases e <;> simp
  · cases (deposit cfg s user asset now).2 with
    | error k => exact Or.inr ⟨k, rfl⟩
    | ok p => exact Or.inl ⟨p, rfl⟩
  · cases (withdraw cfg s user asset now).2 with
    | error k => exact Or.inr ⟨k, rfl⟩
    | ok p => exact Or.inl ⟨p, rfl⟩
  · cases (rewardClaim cfg s user asset now).2 with
    | error k => exact Or.inr ⟨k, rfl⟩
    | ok p => exact Or.inl ⟨p, rfl⟩

/-- C9: the scenario of spec section 8 plays out as stated: Ok, Ok,
`Err(MaxStakeReached)`, `Err(FreezePeriodNotPassed)`, Ok with payout 50,
Ok with payout 50 with the record for asset1 destroyed, and user A ends
with `active_count = 1`. -/
theorem scenario_example :
    sc1.2 = Except.ok ⟨0, 1, 0, 0, 0⟩ ∧
    sc2.2 = Except.ok ⟨0, 2, 0, 0, 0⟩ ∧
    sc3.2 = Except.error EngineError.MaxStakeReached ∧
    sc4.2 = Except.error EngineError.FreezePeriodNotPassed ∧
    sc5.2 = Except.ok 50 ∧
    sc6.2 = Except.ok 50 ∧
    findRecord sc6.1 1 = none ∧
    getCount sc6.1.counters 0 = 1 := by
  refine ⟨?_, ?_, ?_, ?_, ?_, ?_, ?_, ?_⟩ <;>
    norm_num [sc1, sc2, sc3, sc4, sc5, sc6, scCfg, deposit, withdraw,
      rewardClaim, findRecord, findRec, getCount, setCount, accrue,
      EngineState.empty]

/-- Writing a counter for a user stores exactly that value under the key
of that user. -/
theorem getCount_setCount_self (cs : List (Nat × Nat)) (u n : Nat) :
    getCount (setCount cs u n) u = n := by
  induction cs with
  | nil => simp [setCount, getCount]
  | cons p rest ih =>
    by_cases hp : p.1 = u
    · simp [setCount, getCount, hp]
    · simp [setCount, getCount, hp, ih]

/-- Writing a counter for one user leaves every other counter unchanged. -/
theorem getCount_setCount_ne (cs : List (Nat × Nat)) (u n v : Nat)
    (hv : v ≠ u) : getCount (setCount cs u n) v = getCount cs v := by
  induction cs with
  | nil => simp [setCount, getCount, Ne.symm hv]
  | cons p rest ih =>
    by_cases hp : p.1 = u
    · simp [setCount, getCount, hp, Ne.symm hv]
    · simp [setCount, getCount, hp, ih]

/-- A single Deposit keeps every counter at or below the admission
ceiling. -/
theorem deposit_count_le (cfg : StakeConfig) (s : EngineState)
    (user asset now v : Nat)
    (hs : ∀ w, getCount s.counters w ≤ cfg.max_stakes_per_user) :
    getCount (deposit cfg s user asset now).1.counters v ≤
      cfg.max_stakes_per_user := by
  unfold deposit
  split
  · exact hs v
  · split
    · exact hs v
    · show getCount
        (setCount s.counters user (getCount s.counters user + 1)) v ≤
        cfg.max_stakes_per_user
      rename_i hceil _
      by_cases hv : v = user
      · subst hv
        rw [getCount_setCount_self]
        omega
      · rw [getCount_setCount_ne _ _ _ _ hv]
        exact hs v

/-- Any sequence of Deposits keeps every counter at or below the admission
ceiling. -/
theorem runDeposits_count_le (cfg : StakeConfig)
    (ops : List (Nat × Nat × Nat)) : ∀ s : EngineState,
    (∀ w, getCount s.counters w ≤ cfg.max_stakes_per_user) →
    ∀ v, getCount (runDeposits cfg s ops).counters v ≤
      cfg.max_stakes_per_user := by
  induction ops with
  | nil => intro s hs v; exact hs v
  | cons op rest ih =>
    intro s hs v
    obtain ⟨u, a, t⟩ := op
    show getCount (runDeposits cfg (deposit cfg s u a t).1 rest).counters v ≤ _
    exact ih _ (fun w => deposit_count_le cfg s u a t w hs) v

/-- C3: under any sequence of Deposits, `active_count` never exceeds
`max_stakes_per_user`; and a Deposit by a user already at the ceiling fails
with `MaxStakeReached` and changes no state. -/
theorem deposit_ceiling :
    (∀ (cfg : StakeConfig) (s : EngineState) (ops : List (Nat × Nat × Nat))
        (user : Nat),
        (∀ w, getCount s.counters w ≤ cfg.max_stakes_per_user) →
        getCount (runDeposits cfg s ops).counters user ≤
          cfg.max_stakes_per_user) ∧
    (∀ (cfg : StakeConfig) (s : EngineState) (user asset now : Nat),
        getCount s.counters user = cfg.max_stakes_per_user →
        deposit cfg s user asset now =
          (s, Except.error EngineError.MaxStakeReached)) := by
  constructor
  · intro cfg s ops user hs
    exact runDeposits_count_le cfg ops s hs user
  · intro cfg s user asset now h
    unfold deposit
    rw [if_pos (le_of_eq h.symm)]

/-- C3 witness: from the empty state, three Deposits by user 0 under a
ceiling of 2 leave the count at most 2; and a Deposit by a user holding
exactly 2 stakes fails with `MaxStakeReached`, state unchanged. -/
theorem deposit_ceiling_witness :
    getCount (runDeposits scCfg EngineState.empty
      [(0, 1, 0), (0, 2, 0), (0, 3, 0)]).counters 0 ≤ 2 ∧
    deposit scCfg ⟨[⟨0, 1, 0, 0, 0⟩, ⟨0, 2, 0, 0, 0⟩], [(0, 2)]⟩ 0 3 0 =
      (⟨[⟨0, 1, 0, 0, 0⟩, ⟨0, 2, 0, 0, 0⟩], [(0, 2)]⟩,
        Except.error EngineError.MaxStakeReached) :=
  ⟨deposit_ceiling.1 scCfg EngineState.empty [(0, 1, 0), (0, 2, 0), (0, 3, 0)] 0
      (fun w => by simp [EngineState.empty, getCount]),
   deposit_ceiling.2 scCfg ⟨[⟨0, 1, 0, 0, 0⟩, ⟨0, 2, 0, 0, 0⟩], [(0, 2)]⟩ 0 3 0 rfl⟩

/-- C4: for an active record with matching owner, Withdraw strictly before
`staked_at + freeze_duration` fails with `FreezePeriodNotPassed` and leaves
the state (hence the record) unchanged, and Withdraw at or after that
instant succeeds, settling the pending rewards and destroying the
record. -/
theorem withdraw_freeze_gate (cfg : StakeConfig) (s : EngineState)
    (user asset now : Nat) (r : StakeRecord)
    (hfind : findRecord s asset = some r) (howner : r.owner = user) :
    (now < r.staked_at + cfg.freeze_duration →
      withdraw cfg s user asset now =
        (s, Except.error EngineError.FreezePeriodNotPassed)) ∧
    (r.staked_at + cfg.freeze_duration ≤ now →
      withdraw cfg s user asset now =
        (⟨s.records.filter (fun x => x.asset_id != asset),
          setCount s.counters user (getCount s.counters user - 1)⟩,
         Except.ok (r.accrued_unclaimed +
           accrue r.last_claim_at now cfg.reward_rate))) := by
  constructor
  · intro ht
    simp only [withdraw, hfind]
    rw [if_neg (by simp [howner]), if_pos ht]
  · intro ht
    simp only [withdraw, hfind]
    rw [if_neg (by simp [howner]), if_neg (Nat.not_lt.mpr ht)]

/-- C4 witness: with freeze duration 100 and a record staked at 0, a
Withdraw at 50 fails with `FreezePeriodNotPassed` leaving the state intact,
and a Withdraw at 100 succeeds. -/
theorem withdraw_freeze_gate_witness :
    withdraw scCfg ⟨[⟨0, 1, 0, 0, 0⟩], [(0, 1)]⟩ 0 1 50 =
      (⟨[⟨0, 1, 0, 0, 0⟩], [(0, 1)]⟩,
        Except.error EngineError.FreezePeriodNotPassed) ∧
    withdraw scCfg ⟨[⟨0, 1, 0, 0, 0⟩], [(0, 1)]⟩ 0 1 100 =
      (⟨List.filter (fun x => x.asset_id != 1) [⟨0, 1, 0, 0, 0⟩],
        setCount [(0, 1)] 0 (getCount [(0, 1)] 0 - 1)⟩,
       Except.ok ((0 : ℚ) + accrue 0 100 scCfg.reward_rate)) :=
  ⟨(withdraw_freeze_gate scCfg ⟨[⟨0, 1, 0, 0, 0⟩], [(0, 1)]⟩ 0 1 50
      ⟨0, 1, 0, 0, 0⟩ rfl rfl).1 (by decide),
   (withdraw_freeze_gate scCfg ⟨[⟨0, 1, 0, 0, 0⟩], [(0, 1)]⟩ 0 1 100
      ⟨0, 1, 0, 0, 0⟩ rfl rfl).2 (by decide)⟩

/-- C7: RewardClaim never fails with `FreezePeriodNotPassed`, and for an
active record with matching owner it succeeds at any time, paying the
accumulated plus newly accrued rewards. -/
theorem rewardClaim_no_freeze_gate :
    (∀ (cfg : StakeConfig) (s : EngineState) (user asset now : Nat),
        (rewardClaim cfg s user asset now).2 ≠
          Except.error EngineError.FreezePeriodNotPassed) ∧
    (∀ (cfg : StakeConfig) (s : EngineState) (user asset now : Nat)
        (r : StakeRecord),
        findRecord s asset = some r → r.owner = user →
        (rewardClaim cfg s user asset now).2 =
          Except.ok (r.accrued_unclaimed +
            accrue r.last_claim_at now cfg.reward_rate)) := by
  constructor
  · intro cfg s user asset now
    cases hf : findRecord s asset with
    | none => simp [rewardClaim, hf]
    | some r =>
      by_cases ho : r.owner = user
      · simp [rewardClaim, hf, ho]
      · simp [rewardClaim, hf, ho]
  · intro cfg s user asset now r hfind howner
    simp only [rewardClaim, hfind]
    rw [if_neg (by simp [howner])]

/-- C7 witness: a RewardClaim at time 50 on a record staked at 0, well
inside a freeze window of 100, succeeds with the accrued payout. -/
theorem rewardClaim_no_freeze_gate_witness :
    (rewardClaim scCfg ⟨[⟨0, 1, 0, 0, 0⟩], [(0, 1)]⟩ 0 1 50).2 =
      Except.ok ((0 : ℚ) + accrue 0 50 scCfg.reward_rate) :=
  rewardClaim_no_freeze_gate.2 scCfg ⟨[⟨0, 1, 0, 0, 0⟩], [(0, 1)]⟩ 0 1 50
    ⟨0, 1, 0, 0, 0⟩ rfl rfl

/-- C8: every operation is atomic: whenever Deposit, Withdraw or
RewardClaim returns an error, the resulting state is exactly the input
state — no reward settlement, no record or counter mutation survives a
failure. -/
theorem ops_atomic (cfg : StakeConfig) (s : EngineState)
    (user asset now : Nat) :
    (∀ e, (deposit cfg s user asset now).2 = Except.error e →
      (deposit cfg s user asset now).1 = s) ∧
    (∀ e, (withdraw cfg s user asset now).2 = Except.error e →
      (withdraw cfg s user asset now).1 = s) ∧
    (∀ e, (rewardClaim cfg s user asset now).2 = Except.error e →
      (rewardClaim cfg s user asset now).1 = s) := by
  refine ⟨fun e h => ?_, fun e h => ?_, fun e h => ?_⟩
  · by_cases h1 : cfg.max_stakes_per_user ≤ getCount s.counters user
    · simp [deposit, h1]
    · by_cases h2 : (findRecord s asset).isSome
      · simp [deposit, h1, h2]
      · simp [deposit, h1, h2] at h
  · cases hf : findRecord s asset with
    | none => simp [withdraw, hf]
    | some r =>
      by_cases ho : r.owner = user
      · by_cases ht : now < r.staked_at + cfg.freeze_duration
        · simp [withdraw, hf, ho, ht]
        · simp [withdraw, hf, ho, ht] at h
      · simp [withdraw, hf, ho]
  · cases hf : findRecord s asset with
    | none => simp [rewardClaim, hf]
    | some r =>
      by_cases ho : r.owner = user
      · simp [rewardClaim, hf, ho] at h
      · simp [rewardClaim, hf, ho]

/-- C8 witness: a Deposit rejected by the ceiling, a Withdraw rejected by
the freeze gate and a RewardClaim on an absent record each leave the state
exactly as it was. -/
theorem ops_atomic_witness :
    (deposit ⟨0, 100, 1⟩ EngineState.empty 0 1 0).1 = EngineState.empty ∧
    (withdraw scCfg ⟨[⟨0, 1, 0, 0, 0⟩], [(0, 1)]⟩ 0 1 50).1 =
      ⟨[⟨0, 1, 0, 0, 0⟩], [(0, 1)]⟩ ∧
    (rewardClaim scCfg EngineState.empty 0 1 0).1 = EngineState.empty :=
  ⟨(ops_atomic ⟨0, 100, 1⟩ EngineState.empty 0 1 0).1
      EngineError.MaxStakeReached rfl,
   (ops_atomic scCfg ⟨[⟨0, 1, 0, 0, 0⟩], [(0, 1)]⟩ 0 1 50).2.1
      EngineError.FreezePeriodNotPassed rfl,
   (ops_atomic scCfg EngineState.empty 0 1 0).2.2
      EngineError.RecordNotFound rfl⟩

/-- When no time has been skipped backwards, accrual is exactly the rate
times the elapsed interval. -/
theorem accrue_of_le (lca now : Nat) (rate : ℚ) (h : lca ≤ now) :
    accrue lca now rate = rate * ((now : ℚ) - (lca : ℚ)) := by
  unfold accrue
  rw [if_neg (Nat.not_lt.mpr h)]

/-- Settling a record for an asset rewrites exactly the records of that
asset, so the lookup afterwards returns the settled record. -/
theorem findRec_map_update (l : List StakeRecord) (asset now : Nat) :
    findRec (l.map (fun x => if x.asset_id = asset then
        { x with last_claim_at := now, accrued_unclaimed := 0 } else x)) asset
      = (findRec l asset).map
          (fun x => { x with last_claim_at := now, accrued_unclaimed := 0 }) := by
  induction l with
  | nil => rfl
  | cons x xs ih =>
    by_cases h : x.asset_id = asset
    · simp [findRec, h]
    · simp [findRec, h, ih]

/-- Payout sums over a chain of RewardClaims telescope: starting from a
settled record (`accrued_unclaimed = 0`), the claims at non-decreasing
times pay in total the rate times the span from the record's
`last_claim_at` to the last claim time. -/
theorem runClaims_sum (cfg : StakeConfig) (user asset : Nat) :
    ∀ (ts : List Nat) (s : EngineState) (r : StakeRecord),
      findRecord s asset = some r → r.owner = user →
      r.accrued_unclaimed = 0 →
      List.Chain (· ≤ ·) r.last_claim_at ts →
      (runClaims cfg s user asset ts).2 =
        cfg.reward_rate *
          ((ts.getLastD r.last_claim_at : ℚ) - (r.last_claim_at : ℚ)) := by
  intro ts
  induction ts with
  | nil =>
    intro s r hf ho ha hc
    simp [runClaims]
  | cons t rest ih =>
    intro s r hf ho ha hc
    obtain ⟨hle, hc2⟩ := List.chain_cons.mp hc
    have hclaim : rewardClaim cfg s user asset t =
        (⟨s.records.map (fun x => if x.asset_id = asset then
            { x with last_claim_at := t, accrued_unclaimed := 0 } else x),
          s.counters⟩,
         Except.ok (r.accrued_unclaimed +
           accrue r.last_claim_at t cfg.reward_rate)) := by
      simp only [rewardClaim, hf]
      rw [if_neg (by simp [ho])]
    have hrest := ih
      ⟨s.records.map (fun x => if x.asset_id = asset then
          { x with last_claim_at := t, accrued_unclaimed := 0 } else x),
        s.counters⟩
      { r with last_claim_at := t, accrued_unclaimed := 0 }
      (by
        show findRec (s.records.map _) asset = _
        rw [findRec_map_update]
        show (findRecord s asset).map _ = _
        rw [hf]
        rfl)
      ho rfl hc2
    simp only [runClaims, hclaim]
    rw [hrest, ha, accrue_of_le r.last_claim_at t cfg.reward_rate hle]
    simp only [List.getLastD_cons]
    ring

/-- C6: for a record staked at `t0` and any strictly increasing sequence of
RewardClaim times on it, the payouts sum to
`reward_rate * (last claim time - t0)`: splitting the interval into
multiple claims neither creates nor destroys reward units. -/
theorem reward_conservation (cfg : StakeConfig) (s : EngineState)
    (user asset t0 : Nat) (ts : List Nat)
    (hfind : findRecord s asset = some ⟨user, asset, t0, t0, 0⟩)
    (hchain : List.Chain (· < ·) t0 ts) :
    (runClaims cfg s user asset ts).2 =
      cfg.reward_rate * ((ts.getLastD t0 : ℚ) - (t0 : ℚ)) :=
  runClaims_sum cfg user asset ts s ⟨user, asset, t0, t0, 0⟩ hfind rfl rfl
    (List.Chain.imp (fun _ _ h => le_of_lt h) hchain)

/-- C6 witness: claims at times 10 and 25 on a record staked at 0 with
rate 1 pay out 25 in total. -/
theorem reward_conservation_witness :
    (runClaims scCfg ⟨[⟨0, 1, 0, 0, 0⟩], [(0, 1)]⟩ 0 1 [10, 25]).2 =
      scCfg.reward_rate *
        ((([10, 25] : List Nat).getLastD 0 : ℚ) - ((0 : Nat) : ℚ)) :=
  reward_conservation scCfg ⟨[⟨0, 1, 0, 0, 0⟩], [(0, 1)]⟩ 0 1 0 [10, 25]
    rfl (List.Chain.cons (by decide) (List.Chain.cons (by decide) List.Chain.nil))
